import Mathlib

/-!
Shallow embedding of the fragment process event loop of
`src/jormungandr/src/fragment/process.rs`.

The file models:
  * the hourly wakeup future (`hourly_wakeup`),
  * the persistent log-file opening helper (`open_log_file`), including the
    UTC file name `YYYY-MM-DD_HH.log` computed by the proleptic Gregorian
    calendar (chrono's `Utc::now().format` on an hour index),
  * the `Process::start` set-up (logs capacity, warning, initial open), and
  * the `tokio::select!` event loop as a step function over an explicit
    list of environment events (incoming commands and timer firings).

Time is modelled as seconds since the Unix epoch (`Nat`).  Components of
the repository that live outside `process.rs` (the `Pools` admission
logic, the intercom reply handles, the stats counter) appear only through
their visible effects: the outcome of `insert_and_propagate_all` is an
environment input carried by the `sendTransactions` message, and replies
are counted per message.
-/

namespace Fragment

/-- Opaque stand-in for `crate::fragment::pool::Error`. -/
structure PoolError where
  code : Nat
  deriving DecidableEq, Repr

/-- Fragment process error type (`enum Error` in `process.rs`):
`Pool` wraps a pool error, `PersistentLog` wraps an io error (by code). -/
inductive Error where
  | pool (e : PoolError)
  | persistentLog (ioCode : Nat)
  deriving DecidableEq, Repr

/-- Result of an admission batch (`Summary`): accepted and rejected
fragment ids (ids as `Nat`). -/
structure Summary where
  accepted : List Nat
  rejected : List Nat
  deriving DecidableEq, Repr

/-- Fragment process configuration held in `struct Process` (the message
box to the network task is an external collaborator and carries no data
relevant to the claims). -/
structure Process where
  pool_max_entries : Nat
  logs_max_entries : Nat
  deriving DecidableEq, Repr

/-! ### Hourly wakeup timer (`hourly_wakeup`, process.rs lines 58-68) -/

/-- Truncation of a time to the start of its hour:
`now.duration_trunc(Duration::hours(1))`. -/
def floorToHour (now : Nat) : Nat := now / 3600 * 3600

/-- Absolute time at which the hourly wakeup fires when armed at `now`:
`current_hour + Duration::hours(1)` (the timer sleeps `next_hour - now`,
so it resolves at absolute time `next_hour`). -/
def hourlyNextFire (now : Nat) : Nat := floorToHour now + 3600

/-- The `hourly_wakeup(enabled)` future, as the absolute time at which it
resolves: `some t` when enabled (armed at `now`), `none` when disabled
(`future::pending()` never resolves). -/
def hourly_wakeup (enabled : Bool) (now : Nat) : Option Nat :=
  if enabled then some (hourlyNextFire now) else none

/-! ### UTC calendar and log file names (`open_log_file`, lines 70-84) -/

/-- Civil date from days since the Unix epoch (proleptic Gregorian
calendar, as rendered by chrono's `%Y-%m-%d`); returns (year, month, day).
Valid for all days at or after the epoch. -/
def civilFromDays (days : Nat) : Nat × Nat × Nat :=
  let z := days + 719468
  let era := z / 146097
  let doe := z % 146097
  let yoe := (doe - doe / 1460 + doe / 36524 - doe / 146096) / 365
  let y := yoe + era * 400
  let doy := doe - (365 * yoe + yoe / 4 - yoe / 100)
  let mp := (5 * doy + 2) / 153
  let d := doy - (153 * mp + 2) / 5 + 1
  let m := if mp < 10 then mp + 3 else mp - 9
  (if m ≤ 2 then y + 1 else y, m, d)

/-- Zero-padding to two digits, as chrono's `%m`, `%d`, `%H`. -/
def pad2 (n : Nat) : String := if n < 10 then "0" ++ toString n else toString n

/-- Zero-padding to four digits, as chrono's `%Y`. -/
def pad4 (n : Nat) : String :=
  if n < 10 then "000" ++ toString n
  else if n < 100 then "00" ++ toString n
  else if n < 1000 then "0" ++ toString n
  else toString n

/-- File name `Utc::now().format("%Y-%m-%d_%H.log")`, computed from the
hour index (hours since the Unix epoch) of the current time. -/
def logFileName (hour : Nat) : String :=
  let c := civilFromDays (hour / 24)
  pad4 c.1 ++ "-" ++ pad2 c.2.1 ++ "-" ++ pad2 c.2.2 ++ "_" ++ pad2 (hour % 24) ++ ".log"

/-- Outcome, decided by the file system, of one `open_log_file` call:
whether the directory already exists, the result of `create_dir_all`
(`some code` = io error) and of `OpenOptions::open` (`some code` = io
error). -/
structure IoEnv where
  dirExists : Bool
  createDirResult : Option Nat
  openResult : Option Nat
  deriving DecidableEq, Repr

/-- Flags passed to `fs::OpenOptions`. -/
structure OpenMode where
  append : Bool
  create : Bool
  readable : Bool
  deriving DecidableEq, Repr

/-- Visible effect of a successful `open_log_file` call: whether the
directory was created, the full path opened, and the open flags. -/
structure OpenEffect where
  createdDir : Bool
  path : String
  mode : OpenMode
  deriving DecidableEq, Repr

/-- The `open_log_file(dir)` helper (lines 70-84): create the directory
when absent, then open `<dir>/YYYY-MM-DD_HH.log` (name from the current
UTC hour) with `append(true).create(true).read(false)`; io failures are
wrapped in `Error::PersistentLog`. -/
def open_log_file (dir : String) (hour : Nat) (env : IoEnv) : Except Error OpenEffect :=
  let created := !env.dirExists
  let proceed :=
    if env.dirExists then Except.ok ()
    else match env.createDirResult with
      | some code => Except.error (Error.persistentLog code)
      | none => Except.ok ()
  match proceed with
  | Except.error e => Except.error e
  | Except.ok _ =>
    match env.openResult with
    | some code => Except.error (Error.persistentLog code)
    | none =>
      Except.ok { createdDir := created
                  path := dir ++ "/" ++ logFileName hour
                  mode := { append := true, create := true, readable := false } }

/-- An `IoEnv` under which `open_log_file` succeeds. -/
def envOk (env : IoEnv) : Bool :=
  (env.dirExists || env.createDirResult.isNone) && env.openResult.isNone

/-! ### Commands on the input stream (`TransactionMsg`) -/

deriving instance DecidableEq for Except

/-- Messages of the input stream, as dispatched by the loop (lines
118-183).  `Pools::insert_and_propagate_all` lives outside `process.rs`;
its outcome for a `SendTransactions` batch is therefore an environment
input carried by the message. -/
inductive TransactionMsg where
  | sendTransactions (outcome : Except PoolError Summary)
  | removeTransactions (fragmentIds : List Nat)
  | getLogs
  | getStatuses (fragmentIds : List Nat)
  | selectTransactions (poolIdx : Nat)
  deriving DecidableEq, Repr

/-- Whether the message variant carries a one-shot reply handle. -/
def carriesHandle : TransactionMsg → Bool
  | .sendTransactions _ => true
  | .removeTransactions _ => false
  | .getLogs => true
  | .getStatuses _ => true
  | .selectTransactions _ => true

/-- Processing of one input message by the loop body: the number of
replies sent on the message's handle before it is dropped, and the fatal
error (if any) that the `?` operator propagates out of the loop.  In the
`SendTransactions` arm, `insert_and_propagate_all(..).await?` runs before
`reply_handle.reply_ok(summary)`, so an error returns from the loop with
no reply; all other reply-carrying arms reply unconditionally. -/
def processMsg : TransactionMsg → Nat × Option Error
  | .sendTransactions (.ok _) => (1, none)
  | .sendTransactions (.error e) => (0, some (Error.pool e))
  | .removeTransactions _ => (0, none)
  | .getLogs => (1, none)
  | .getStatuses _ => (1, none)
  | .selectTransactions _ => (1, none)

/-! ### The event loop (`Process::start`, lines 94-196) -/

/-- One resolution of the `tokio::select!`: either `input.next()` yielded
a message, or the armed wakeup future resolved at absolute time `t`
(with `env` deciding the io outcomes of the rotation's `open_log_file`).
Exhaustion of the event list models `input.next()` returning `None`. -/
inductive LoopEvent where
  | msg (m : TransactionMsg)
  | wakeup (t : Nat) (env : IoEnv)
  deriving DecidableEq, Repr

/-- File-handle effects of the rotation arm, in execution order. -/
inductive Effect where
  | close
  | openFile (hour : Nat)
  | install (hour : Nat)
  deriving DecidableEq, Repr

/-- Trace record of one processed event: a command with the number of
replies sent on its handle, or a rotation with its file effects. -/
inductive TraceEntry where
  | command (m : TransactionMsg) (replies : Nat)
  | rotation (effects : List Effect)
  deriving DecidableEq, Repr

/-- Mutable state of the loop: the absolute time at which the armed
wakeup future resolves (`none` = `future::pending()`), the hour of the
persistent-log file currently installed in `Pools` (`none` = no handle
held), and the hours of all files opened so far, in order of opening. -/
structure RunState where
  nextFire : Option Nat
  currentLog : Option Nat
  openedHours : List Nat
  deriving DecidableEq, Repr

/-- Result of processing one event: continue with a new state, halt the
loop with an error (carrying the state at the moment of the halt), or
panic. -/
inductive StepOut where
  | cont (s : RunState) (tr : TraceEntry)
  | halt (s : RunState) (e : Error) (tr : TraceEntry)
  | panicked
  deriving DecidableEq, Repr

/-- One iteration of the `loop { tokio::select! { ... } }`.  The rotation
arm (lines 186-192) runs `pool.close_persistent_log()`, then unwraps
`persistent_log_dir` (modelled: `none` panics), then `open_log_file`
(an error propagates out of the loop), then `pool.set_persistent_log`,
then re-arms the wakeup from the current time. -/
def stepEvent (dir : Option String) (s : RunState) : LoopEvent → StepOut
  | .msg m =>
    let r := processMsg m
    match r.2 with
    | none => .cont s (.command m r.1)
    | some e => .halt s e (.command m r.1)
  | .wakeup t env =>
    let s1 : RunState := { s with currentLog := none }
    match dir with
    | none => .panicked
    | some d =>
      match open_log_file d (t / 3600) env with
      | .error e => .halt s1 e (.rotation [Effect.close])
      | .ok _ =>
        .cont { s1 with currentLog := some (t / 3600)
                        openedHours := s1.openedHours ++ [t / 3600]
                        nextFire := hourly_wakeup true t }
          (.rotation [Effect.close, Effect.openFile (t / 3600), Effect.install (t / 3600)])

/-- Outcome of the loop: `finished` models `break` on `None` followed by
`Ok(())`; `failed e` models an `Err` propagated by `?`. -/
inductive RunOutcome where
  | finished
  | failed (e : Error)
  | panicked
  deriving DecidableEq, Repr

/-- Result of running the loop: its outcome, final state, and the trace
of processed events. -/
structure RunResult where
  outcome : RunOutcome
  state : RunState
  trace : List TraceEntry
  deriving DecidableEq, Repr

/-- The event loop: processes events until the list is exhausted
(`input.next()` = `None`, `break`, `Ok(())`), an error halts it, or the
rotation arm panics.  Events after a halt are never processed. -/
def runLoop (dir : Option String) (s : RunState) : List LoopEvent → RunResult
  | [] => ⟨.finished, s, []⟩
  | e :: rest =>
    match stepEvent dir s e with
    | .cont s' tr =>
      let r := runLoop dir s' rest
      ⟨r.outcome, r.state, tr :: r.trace⟩
    | .halt s' err tr => ⟨.failed err, s', [tr]⟩
    | .panicked => ⟨.panicked, s, []⟩

/-- Pool-capacity floor for the logs index (line 86):
`n_pools * pool_max_entries`. -/
def min_logs_size (p : Process) (n_pools : Nat) : Nat :=
  n_pools * p.pool_max_entries

/-- Number of warnings emitted by `start` (lines 87-91): one when the
configured `logs_max_entries` is below the floor, zero otherwise. -/
def warnCount (p : Process) (n_pools : Nat) : Nat :=
  if p.logs_max_entries < min_logs_size p n_pools then 1 else 0

/-- Effective capacity passed to `Logs::new` (line 92):
`max(logs_max_entries, min_logs_size)`. -/
def logsCapacity (p : Process) (n_pools : Nat) : Nat :=
  max p.logs_max_entries (min_logs_size p n_pools)

/-- Result of `Process::start`: the warnings and logs capacity from the
set-up, and the run of the event loop. -/
structure StartResult where
  warnings : Nat
  capacity : Nat
  run : RunResult
  deriving DecidableEq, Repr

/-- The `Process::start` body after the set-up (lines 94-111): arm the
wakeup from the start time `t0` (enabled iff `persistent_log_dir` is
`Some`), perform the initial `open_log_file` when enabled (an error is
returned before the loop starts), then enter the loop. -/
def startLoop (dir : Option String) (env0 : IoEnv) (t0 : Nat)
    (events : List LoopEvent) : RunResult :=
  let nf := hourly_wakeup dir.isSome t0
  match dir with
  | none => runLoop none ⟨nf, none, []⟩ events
  | some d =>
    match open_log_file d (t0 / 3600) env0 with
    | .error e => ⟨.failed e, ⟨nf, none, []⟩, []⟩
    | .ok _ => runLoop (some d) ⟨nf, some (t0 / 3600), [t0 / 3600]⟩ events

/-- `Process::start` (lines 50-199): compute the warning and the logs
capacity, then run the loop.  `n_pools` reaches only the capacity
computation and `Pools::new`; `start` performs no validation of it. -/
def Process.start (p : Process) (n_pools : Nat) (dir : Option String)
    (env0 : IoEnv) (t0 : Nat) (events : List LoopEvent) : StartResult :=
  ⟨warnCount p n_pools, logsCapacity p n_pools, startLoop dir env0 t0 events⟩

/-- Well-formedness of an environment trace: the wakeup arm of
`tokio::select!` can only run when the armed future resolves, which
requires `nextFire = some nf` and a current time `t ≥ nf` (tokio's sleep
never fires early).  Events past a halt are unconstrained (they are never
processed). -/
def validFrom (dir : Option String) (s : RunState) : List LoopEvent → Bool
  | [] => true
  | .msg m :: rest =>
    match stepEvent dir s (.msg m) with
    | .cont s' _ => validFrom dir s' rest
    | _ => true
  | .wakeup t env :: rest =>
    match s.nextFire with
    | none => false
    | some nf =>
      decide (nf ≤ t) &&
        match stepEvent dir s (.wakeup t env) with
        | .cont s' _ => validFrom dir s' rest
        | _ => true

/-- Well-formedness of a whole `start` run: when the set-up fails before
the loop, there is nothing to constrain; otherwise the loop's events are
constrained from the state entering the loop. -/
def validStart (dir : Option String) (env0 : IoEnv) (t0 : Nat)
    (events : List LoopEvent) : Bool :=
  match dir with
  | none => validFrom none ⟨none, none, []⟩ events
  | some d =>
    match open_log_file d (t0 / 3600) env0 with
    | .error _ => true
    | .ok _ =>
      validFrom (some d) ⟨some (hourlyNextFire t0), some (t0 / 3600), [t0 / 3600]⟩ events

/-- An event whose processing continues the loop: a message whose arm
does not propagate an error, or a timer firing whose `open_log_file`
succeeds (requires persistence to be enabled). -/
def eventClean (dir : Option String) : LoopEvent → Bool
  | .msg m => (processMsg m).2.isNone
  | .wakeup _ env => dir.isSome && envOk env

/-- Loop invariant tying the armed timer to the configuration and the
opened files: the wakeup can only be armed when persistence is enabled,
the opened hours are strictly increasing, and every opened hour lies
strictly before the hour of the armed fire time. -/
def Inv (dir : Option String) (s : RunState) : Prop :=
  (s.nextFire.isSome = true → dir.isSome = true) ∧
  List.Pairwise (· < ·) s.openedHours ∧
  ∀ nf, s.nextFire = some nf → ∀ h ∈ s.openedHours, h < nf / 3600

/-! ### Helper lemmas -/

theorem hourlyNextFire_div (t : Nat) : hourlyNextFire t / 3600 = t / 3600 + 1 := by
  unfold hourlyNextFire floorToHour
  omega

theorem open_log_file_of_envOk (d : String) (h : Nat) (env : IoEnv)
    (he : envOk env = true) :
    open_log_file d h env =
      Except.ok ⟨!env.dirExists, d ++ "/" ++ logFileName h, ⟨true, true, false⟩⟩ := by
  obtain ⟨de, cr, op⟩ := env
  cases de <;> cases cr <;> cases op <;> simp_all [envOk, open_log_file]

theorem stepEvent_msg_cont (dir : Option String) (s : RunState) (m : TransactionMsg)
    (h : (processMsg m).2 = none) :
    stepEvent dir s (.msg m) = .cont s (.command m (processMsg m).1) := by
  simp [stepEvent, h]

theorem stepEvent_msg_halt (dir : Option String) (s : RunState) (m : TransactionMsg)
    (e : Error) (h : (processMsg m).2 = some e) :
    stepEvent dir s (.msg m) = .halt s e (.command m (processMsg m).1) := by
  simp [stepEvent, h]

theorem stepEvent_wakeup_ok (d : String) (s : RunState) (t : Nat) (env : IoEnv)
    (eff : OpenEffect) (h : open_log_file d (t / 3600) env = .ok eff) :
    stepEvent (some d) s (.wakeup t env) =
      .cont ⟨some (hourlyNextFire t), some (t / 3600), s.openedHours ++ [t / 3600]⟩
        (.rotation [Effect.close, Effect.openFile (t / 3600), Effect.install (t / 3600)]) := by
  simp [stepEvent, h, hourly_wakeup]

theorem stepEvent_wakeup_err (d : String) (s : RunState) (t : Nat) (env : IoEnv)
    (e : Error) (h : open_log_file d (t / 3600) env = .error e) :
    stepEvent (some d) s (.wakeup t env) =
      .halt { s with currentLog := none } e (.rotation [Effect.close]) := by
  simp [stepEvent, h]

/-- Invariant preservation and panic freedom along a valid run, plus the
final state's invariant. -/
theorem runLoop_inv (dir : Option String) :
    ∀ (events : List LoopEvent) (s : RunState), Inv dir s →
      validFrom dir s events = true →
      (runLoop dir s events).outcome ≠ RunOutcome.panicked ∧
      Inv dir (runLoop dir s events).state := by
  intro events
  induction events with
  | nil =>
    intro s hInv _
    exact ⟨by simp [runLoop], by simpa [runLoop] using hInv⟩
  | cons e rest ih =>
    intro s hInv hval
    cases e with
    | msg m =>
      cases hpm : (processMsg m).2 with
      | none =>
        have hstep := stepEvent_msg_cont dir s m hpm
        rw [validFrom, hstep] at hval
        have := ih s hInv hval
        simpa [runLoop, hstep] using this
      | some err =>
        have hstep := stepEvent_msg_halt dir s m err hpm
        refine ⟨?_, ?_⟩
        · simp [runLoop, hstep]
        · simpa [runLoop, hstep] using hInv
    | wakeup t env =>
      rw [validFrom] at hval
      cases hnf : s.nextFire with
      | none => rw [hnf] at hval; exact absurd hval (by simp)
      | some nf =>
        rw [hnf] at hval
        simp only [Bool.and_eq_true, decide_eq_true_eq] at hval
        obtain ⟨hle, hmatch⟩ := hval
        have hdir : dir.isSome = true := hInv.1 (by rw [hnf]; rfl)
        obtain ⟨d, rfl⟩ := Option.isSome_iff_exists.mp hdir
        cases holf : open_log_file d (t / 3600) env with
        | error e =>
          have hstep := stepEvent_wakeup_err d s t env e holf
          refine ⟨by simp [runLoop, hstep], ?_⟩
          have : Inv (some d) { s with currentLog := none } := hInv
          simpa [runLoop, hstep] using this
        | ok eff =>
          have hstep := stepEvent_wakeup_ok d s t env eff holf
          rw [hstep] at hmatch
          have hbound : ∀ h ∈ s.openedHours, h < t / 3600 := by
            intro h hh
            have h1 := hInv.2.2 nf hnf h hh
            exact lt_of_lt_of_le h1 (Nat.div_le_div_right hle)
          have hInv' : Inv (some d)
              ⟨some (hourlyNextFire t), some (t / 3600), s.openedHours ++ [t / 3600]⟩ := by
            refine ⟨fun _ => rfl, ?_, ?_⟩
            · rw [List.pairwise_append]
              exact ⟨hInv.2.1, List.pairwise_singleton _ _,
                fun a ha b hb => by
                  rw [List.mem_singleton] at hb
                  exact hb ▸ hbound a ha⟩
            · intro nf' hnf' h hh
              have hnfv : nf' = hourlyNextFire t := by
                simpa using hnf'.symm
              rw [hnfv, hourlyNextFire_div]
              rcases List.mem_append.mp hh with hl | hr
              · exact Nat.lt_succ_of_lt (hbound h hl)
              · rw [List.mem_singleton] at hr
                rw [hr]
                exact Nat.lt_succ_self _
          have := ih _ hInv' hmatch
          simpa [runLoop, hstep] using this

/-- Every rotation entry in a trace closes the old handle first, and on
success opens exactly one file and installs it, in that order. -/
theorem runLoop_rotation_shape (dir : Option String) :
    ∀ (events : List LoopEvent) (s : RunState),
      ∀ tr ∈ (runLoop dir s events).trace, ∀ effs, tr = TraceEntry.rotation effs →
        effs = [Effect.close] ∨
        ∃ h, effs = [Effect.close, Effect.openFile h, Effect.install h] := by
  intro events
  induction events with
  | nil => intro s tr htr; simp [runLoop] at htr
  | cons e rest ih =>
    intro s tr htr effs heq
    cases e with
    | msg m =>
      cases hpm : (processMsg m).2 with
      | none =>
        rw [runLoop, stepEvent_msg_cont dir s m hpm] at htr
        simp only [List.mem_cons] at htr
        rcases htr with h1 | h2
        · rw [h1] at heq; cases heq
        · exact ih s tr h2 effs heq
      | some err =>
        rw [runLoop, stepEvent_msg_halt dir s m err hpm] at htr
        simp only [List.mem_singleton] at htr
        rw [htr] at heq; cases heq
    | wakeup t env =>
      cases dir with
      | none =>
        rw [runLoop] at htr
        simp only [stepEvent] at htr
        simp at htr
      | some d =>
        cases holf : open_log_file d (t / 3600) env with
        | error e =>
          rw [runLoop, stepEvent_wakeup_err d s t env e holf] at htr
          simp only [List.mem_singleton] at htr
          rw [htr] at heq
          injection heq with heff
          exact Or.inl heff.symm
        | ok eff =>
          rw [runLoop, stepEvent_wakeup_ok d s t env eff holf] at htr
          simp only [List.mem_cons] at htr
          rcases htr with h1 | h2
          · rw [h1] at heq
            injection heq with heff
            exact Or.inr ⟨t / 3600, heff.symm⟩
          · exact ih _ tr h2 effs heq

/-- A run all of whose events are clean reaches the end of the input
stream and finishes. -/
theorem runLoop_clean (dir : Option String) :
    ∀ (events : List LoopEvent) (s : RunState),
      (∀ e ∈ events, eventClean dir e = true) →
      (runLoop dir s events).outcome = RunOutcome.finished := by
  intro events
  induction events with
  | nil => intro s _; simp [runLoop]
  | cons e rest ih =>
    intro s hclean
    have he : eventClean dir e = true := hclean e (List.mem_cons_self e rest)
    have hrest : ∀ e' ∈ rest, eventClean dir e' = true :=
      fun e' h' => hclean e' (List.mem_cons_of_mem e h')
    cases e with
    | msg m =>
      have hpm : (processMsg m).2 = none := by
        simpa [eventClean, Option.isNone_iff_eq_none] using he
      rw [runLoop, stepEvent_msg_cont dir s m hpm]
      exact ih s hrest
    | wakeup t env =>
      simp only [eventClean, Bool.and_eq_true] at he
      obtain ⟨d, rfl⟩ := Option.isSome_iff_exists.mp he.1
      have holf := open_log_file_of_envOk d (t / 3600) env he.2
      rw [runLoop, stepEvent_wakeup_ok d s t env _ holf]
      exact ih _ hrest

/-- With a never-resolving wakeup, a valid run is driven by messages
alone: the loop state never changes and the trace holds only command
entries. -/
theorem runLoop_pending (dir : Option String) :
    ∀ (events : List LoopEvent) (s : RunState), s.nextFire = none →
      validFrom dir s events = true →
      (runLoop dir s events).state = s ∧
      ∀ tr ∈ (runLoop dir s events).trace, ∃ m k, tr = TraceEntry.command m k := by
  intro events
  induction events with
  | nil => intro s _ _; exact ⟨by simp [runLoop], by simp [runLoop]⟩
  | cons e rest ih =>
    intro s hnf hval
    cases e with
    | msg m =>
      cases hpm : (processMsg m).2 with
      | none =>
        have hstep := stepEvent_msg_cont dir s m hpm
        rw [validFrom, hstep] at hval
        have := ih s hnf hval
        refine ⟨by simpa [runLoop, hstep] using this.1, ?_⟩
        intro tr htr
        rw [runLoop, hstep] at htr
        simp only [List.mem_cons] at htr
        rcases htr with h1 | h2
        · exact ⟨m, (processMsg m).1, h1⟩
        · exact this.2 tr h2
      | some err =>
        have hstep := stepEvent_msg_halt dir s m err hpm
        refine ⟨by simp [runLoop, hstep], ?_⟩
        intro tr htr
        rw [runLoop, hstep] at htr
        simp only [List.mem_singleton] at htr
        exact ⟨m, (processMsg m).1, htr⟩
    | wakeup t env =>
      rw [validFrom, hnf] at hval
      exact absurd hval (by simp)

/-- Invariant and panic freedom for a full `start` run. -/
theorem startLoop_inv (dir : Option String) (env0 : IoEnv) (t0 : Nat)
    (events : List LoopEvent) (hv : validStart dir env0 t0 events = true) :
    (startLoop dir env0 t0 events).outcome ≠ RunOutcome.panicked ∧
    Inv dir (startLoop dir env0 t0 events).state := by
  cases dir with
  | none =>
    have hInv : Inv none ⟨hourly_wakeup false t0, none, []⟩ := by
      refine ⟨?_, List.Pairwise.nil, ?_⟩
      · intro h; simp [hourly_wakeup] at h
      · intro nf _ h hh; simp at hh
    have hv' : validFrom none ⟨hourly_wakeup false t0, none, []⟩ events = true := hv
    exact runLoop_inv none events _ hInv hv'
  | some d =>
    cases holf : open_log_file d (t0 / 3600) env0 with
    | error e =>
      refine ⟨by simp [startLoop, holf], ?_⟩
      have : Inv (some d) ⟨hourly_wakeup true t0, none, []⟩ := by
        refine ⟨fun _ => rfl, List.Pairwise.nil, ?_⟩
        intro nf _ h hh; simp at hh
      simpa [startLoop, holf] using this
    | ok eff =>
      have hInv : Inv (some d) ⟨some (hourlyNextFire t0), some (t0 / 3600), [t0 / 3600]⟩ := by
        refine ⟨fun _ => rfl, List.pairwise_singleton _ _, ?_⟩
        intro nf hnf h hh
        have h1 : nf = hourlyNextFire t0 := by simpa using hnf.symm
        rw [List.mem_singleton] at hh
        rw [h1, hourlyNextFire_div, hh]
        exact Nat.lt_succ_self _
      have hv' : validFrom (some d)
          ⟨some (hourlyNextFire t0), some (t0 / 3600), [t0 / 3600]⟩ events = true := by
        simpa [validStart, holf] using hv
      have := runLoop_inv (some d) events _ hInv hv'
      simpa [startLoop, holf, hourly_wakeup] using this

/-! ### Claims -/

/-- Claim C1 (counterexample): the loop does not respond on every reply
handle before dropping it.  A `SendTransactions` command whose
`insert_and_propagate_all` call returns an error carries a reply handle
(`carriesHandle = true`), yet its processing sends zero replies (the
trace records `command _ 0`) and the loop terminates with the error, so
the handle is dropped without any response. -/
theorem claim1_reply_counterexample :
    carriesHandle (TransactionMsg.sendTransactions (Except.error ⟨7⟩)) = true ∧
    (runLoop (some "logs") ⟨some 3600, some 0, [0]⟩
        [LoopEvent.msg (TransactionMsg.sendTransactions (Except.error ⟨7⟩))]).trace =
      [TraceEntry.command (TransactionMsg.sendTransactions (Except.error ⟨7⟩)) 0] ∧
    (runLoop (some "logs") ⟨some 3600, some 0, [0]⟩
        [LoopEvent.msg (TransactionMsg.sendTransactions (Except.error ⟨7⟩))]).outcome =
      RunOutcome.failed (Error.pool ⟨7⟩) := by
  decide

/-- Claim C1 (amended): every command carrying a reply handle whose arm
completes without a fatal error is answered exactly once before its
handle is dropped; on the path where `insert_and_propagate_all` returns
an error, the loop terminates with that error and the Submit handle is
dropped without any reply. -/
theorem claim1_reply_amended (m : TransactionMsg) (hm : carriesHandle m = true) :
    ((processMsg m).2 = none →
      (processMsg m).1 = 1 ∧
      ∀ dir s rest, runLoop dir s (LoopEvent.msg m :: rest) =
        ⟨(runLoop dir s rest).outcome, (runLoop dir s rest).state,
          TraceEntry.command m 1 :: (runLoop dir s rest).trace⟩) ∧
    (∀ e, (processMsg m).2 = some e →
      (processMsg m).1 = 0 ∧
      (∃ pe, m = TransactionMsg.sendTransactions (Except.error pe) ∧ e = Error.pool pe) ∧
      ∀ dir s rest, runLoop dir s (LoopEvent.msg m :: rest) =
        ⟨RunOutcome.failed e, s, [TraceEntry.command m 0]⟩) := by
  have step1 : (processMsg m).2 = none →
      ∀ dir s rest, runLoop dir s (LoopEvent.msg m :: rest) =
        ⟨(runLoop dir s rest).outcome, (runLoop dir s rest).state,
          TraceEntry.command m (processMsg m).1 :: (runLoop dir s rest).trace⟩ := by
    intro h dir s rest
    rw [runLoop, stepEvent_msg_cont dir s m h]
  have step2 : ∀ e, (processMsg m).2 = some e →
      ∀ dir s rest, runLoop dir s (LoopEvent.msg m :: rest) =
        ⟨RunOutcome.failed e, s, [TraceEntry.command m (processMsg m).1]⟩ := by
    intro e h dir s rest
    rw [runLoop, stepEvent_msg_halt dir s m e h]
  cases m with
  | sendTransactions outcome =>
    cases outcome with
    | ok su =>
      refine ⟨fun h => ⟨rfl, step1 h⟩, fun e h => ?_⟩
      simp [processMsg] at h
    | error pe =>
      refine ⟨fun h => ?_, fun e h => ?_⟩
      · simp [processMsg] at h
      · have he : e = Error.pool pe := by
          have := h.symm
          simpa [processMsg] using this
        exact ⟨rfl, ⟨pe, rfl, he⟩, by
          intro dir s rest
          have := step2 e h dir s rest
          simpa using this⟩
  | removeTransactions l => simp [carriesHandle] at hm
  | getLogs => exact ⟨fun h => ⟨rfl, step1 h⟩, fun e h => by simp [processMsg] at h⟩
  | getStatuses l => exact ⟨fun h => ⟨rfl, step1 h⟩, fun e h => by simp [processMsg] at h⟩
  | selectTransactions i => exact ⟨fun h => ⟨rfl, step1 h⟩, fun e h => by simp [processMsg] at h⟩

/-- Claim C1 witness: the `GetLogs` arm replies exactly once. -/
theorem claim1_reply_witness : (processMsg TransactionMsg.getLogs).1 = 1 :=
  ((claim1_reply_amended TransactionMsg.getLogs rfl).1 rfl).1

/-- Claim C2: the Logs index is constructed with capacity
`max(logs_max_entries, n_pools * pool_max_entries)`; when the configured
value is strictly below the product, the effective capacity is the
product and exactly one warning is emitted at start. -/
theorem claim2_logs_capacity (p : Process) (n_pools : Nat) (dir : Option String)
    (env0 : IoEnv) (t0 : Nat) (events : List LoopEvent) :
    (Process.start p n_pools dir env0 t0 events).capacity =
      max p.logs_max_entries (n_pools * p.pool_max_entries) ∧
    (p.logs_max_entries < n_pools * p.pool_max_entries →
      (Process.start p n_pools dir env0 t0 events).capacity = n_pools * p.pool_max_entries ∧
      (Process.start p n_pools dir env0 t0 events).warnings = 1) ∧
    (n_pools * p.pool_max_entries ≤ p.logs_max_entries →
      (Process.start p n_pools dir env0 t0 events).warnings = 0) := by
  refine ⟨rfl, fun h => ⟨?_, ?_⟩, fun h => ?_⟩
  · show logsCapacity p n_pools = _
    unfold logsCapacity min_logs_size
    omega
  · show warnCount p n_pools = 1
    unfold warnCount min_logs_size
    rw [if_pos h]
  · show warnCount p n_pools = 0
    unfold warnCount min_logs_size
    rw [if_neg (Nat.not_lt.mpr h)]

/-- Claim C2 witness: with `pool_max_entries = 10`, `logs_max_entries = 5`
and two pools, the capacity is raised to 20 and one warning is emitted. -/
theorem claim2_logs_capacity_witness :
    (Process.start ⟨10, 5⟩ 2 none ⟨true, none, none⟩ 0 []).capacity = 20 ∧
    (Process.start ⟨10, 5⟩ 2 none ⟨true, none, none⟩ 0 []).warnings = 1 :=
  (claim2_logs_capacity ⟨10, 5⟩ 2 none ⟨true, none, none⟩ 0 []).2.1 (by decide)

/-- Claim C3 (counterexample): starting the process with `n_pools = 0` is
not rejected: `start` enters the event loop, processes a `GetLogs`
command (replying once), and finishes normally. -/
theorem claim3_counterexample :
    (Process.start ⟨10, 5⟩ 0 none ⟨true, none, none⟩ 0
        [LoopEvent.msg TransactionMsg.getLogs]).run =
      ⟨RunOutcome.finished, ⟨none, none, []⟩,
        [TraceEntry.command TransactionMsg.getLogs 1]⟩ := by
  decide

/-- Claim C3 (amended): `start` performs no validation of `n_pools`:
with `n_pools = 0` it emits no warning, constructs the Logs index with
the configured `logs_max_entries` (the floor `0 * pool_max_entries` is
zero), and runs the event loop exactly as with any other pool count. -/
theorem claim3_amended (p : Process) (dir : Option String) (env0 : IoEnv)
    (t0 : Nat) (events : List LoopEvent) :
    Process.start p 0 dir env0 t0 events =
      ⟨0, p.logs_max_entries, startLoop dir env0 t0 events⟩ ∧
    ∀ n_pools, (Process.start p n_pools dir env0 t0 events).run =
      (Process.start p 0 dir env0 t0 events).run := by
  constructor
  · show (⟨warnCount p 0, logsCapacity p 0, _⟩ : StartResult) = _
    have h1 : warnCount p 0 = 0 := by
      unfold warnCount min_logs_size
      rw [if_neg (by omega)]
    have h2 : logsCapacity p 0 = p.logs_max_entries := by
      unfold logsCapacity min_logs_size; omega
    rw [h1, h2]
  · intro n_pools; rfl

/-- Claim C4: on every firing of the rotation timer the loop closes the
installed persistent-log file before opening and installing the file for
the new hour (every rotation trace entry is `[close]`, when the open
fails, or `[close, openFile h, install h]`), so at most one handle is
held at any time; and along any valid run the opened hours are strictly
increasing, so a file closed by rotation is never reopened. -/
theorem claim4_rotation (p : Process) (n_pools : Nat) (dir : Option String)
    (env0 : IoEnv) (t0 : Nat) (events : List LoopEvent)
    (hv : validStart dir env0 t0 events = true) :
    (∀ tr ∈ (Process.start p n_pools dir env0 t0 events).run.trace,
      ∀ effs, tr = TraceEntry.rotation effs →
        effs = [Effect.close] ∨
        ∃ h, effs = [Effect.close, Effect.openFile h, Effect.install h]) ∧
    List.Pairwise (· < ·)
      (Process.start p n_pools dir env0 t0 events).run.state.openedHours := by
  refine ⟨?_, ((startLoop_inv dir env0 t0 events hv).2).2.1⟩
  show ∀ tr ∈ (startLoop dir env0 t0 events).trace, _
  cases dir with
  | none => exact runLoop_rotation_shape none events _
  | some d =>
    cases holf : open_log_file d (t0 / 3600) env0 with
    | error e => simp [startLoop, holf]
    | ok eff =>
      have := runLoop_rotation_shape (some d) events
        ⟨some (hourlyNextFire t0), some (t0 / 3600), [t0 / 3600]⟩
      simpa [startLoop, holf, hourly_wakeup] using this

/-- Claim C4 witness: a run with an initial open at hour 0 and rotations
at hours 1 and 2 opens strictly increasing hours. -/
theorem claim4_rotation_witness :
    List.Pairwise (· < ·)
      ((Process.start ⟨10, 5⟩ 2 (some "logs") ⟨true, none, none⟩ 1000
        [LoopEvent.wakeup 3600 ⟨true, none, none⟩,
         LoopEvent.wakeup 7300 ⟨true, none, none⟩]).run.state.openedHours) :=
  (claim4_rotation ⟨10, 5⟩ 2 (some "logs") ⟨true, none, none⟩ 1000
    [LoopEvent.wakeup 3600 ⟨true, none, none⟩, LoopEvent.wakeup 7300 ⟨true, none, none⟩]
    (by decide)).2

/-- Claim C5: the armed wakeup resolves at `floor_to_hour(now) + 1h`
(the top of the next wall-clock hour: strictly after `now`, at most one
hour later, and aligned to the hour), and after each firing the rotation
arm re-arms the timer from the new current time `t` of the firing, not
from the previously scheduled time. -/
theorem claim5_timer (now : Nat) :
    hourly_wakeup true now = some (floorToHour now + 3600) ∧
    now < hourlyNextFire now ∧
    hourlyNextFire now ≤ now + 3600 ∧
    hourlyNextFire now % 3600 = 0 ∧
    (∀ (dir : Option String) (s : RunState) (t : Nat) (env : IoEnv)
        (s' : RunState) (tr : TraceEntry),
      stepEvent dir s (LoopEvent.wakeup t env) = StepOut.cont s' tr →
      s'.nextFire = some (hourlyNextFire t)) := by
  refine ⟨rfl, ?_, ?_, ?_, ?_⟩
  · unfold hourlyNextFire floorToHour; omega
  · unfold hourlyNextFire floorToHour; omega
  · unfold hourlyNextFire floorToHour; omega
  · intro dir s t env s' tr hstep
    cases dir with
    | none => simp [stepEvent] at hstep
    | some d =>
      cases holf : open_log_file d (t / 3600) env with
      | error e => rw [stepEvent_wakeup_err d s t env e holf] at hstep; cases hstep
      | ok eff =>
        rw [stepEvent_wakeup_ok d s t env eff holf] at hstep
        cases hstep
        rfl

/-- Claim C5 witness: a rotation firing at time 3600 re-arms the wakeup
for time 7200. -/
theorem claim5_timer_witness :
    (⟨some 7200, some 1, [0, 1]⟩ : RunState).nextFire = some (hourlyNextFire 3600) :=
  (claim5_timer 0).2.2.2.2 (some "logs") ⟨some 3600, some 0, [0]⟩ 3600 ⟨true, none, none⟩
    ⟨some 7200, some 1, [0, 1]⟩
    (TraceEntry.rotation [Effect.close, Effect.openFile 1, Effect.install 1])
    (by decide)

/-- Claim C6: with `persistent_log_dir = None` the wakeup future never
resolves (`hourly_wakeup false` is `pending`), so in any valid run the
rotation arm never executes: no log file is ever opened, the loop state
never changes, and every processed event is an input command. -/
theorem claim6_disabled (p : Process) (n_pools : Nat) (env0 : IoEnv) (t0 : Nat)
    (events : List LoopEvent)
    (hv : validStart none env0 t0 events = true) :
    (∀ t, hourly_wakeup false t = none) ∧
    (Process.start p n_pools none env0 t0 events).run.state.openedHours = [] ∧
    (∀ tr ∈ (Process.start p n_pools none env0 t0 events).run.trace,
      ∃ m k, tr = TraceEntry.command m k) := by
  have hps := runLoop_pending none events ⟨none, none, []⟩ rfl hv
  refine ⟨fun t => rfl, ?_, ?_⟩
  · show (runLoop none ⟨hourly_wakeup false t0, none, []⟩ events).state.openedHours = []
    rw [show hourly_wakeup false t0 = none from rfl, hps.1]
  · show ∀ tr ∈ (runLoop none ⟨hourly_wakeup false t0, none, []⟩ events).trace, _
    rw [show hourly_wakeup false t0 = none from rfl]
    exact hps.2

/-- Claim C6 witness: with persistence disabled the wakeup is pending and
a command-only run opens no file. -/
theorem claim6_disabled_witness :
    hourly_wakeup false 0 = none ∧
    (Process.start ⟨10, 5⟩ 2 none ⟨true, none, none⟩ 0
        [LoopEvent.msg TransactionMsg.getLogs]).run.state.openedHours = [] := by
  have h := claim6_disabled ⟨10, 5⟩ 2 ⟨true, none, none⟩ 0
    [LoopEvent.msg TransactionMsg.getLogs] (by decide)
  exact ⟨h.1 0, h.2.1⟩

/-- Claim C7: every successful `open_log_file` call opens
`<dir>/YYYY-MM-DD_HH.log` named from the current UTC hour, in append +
create (non-read) mode, and creates the configured directory exactly
when it does not already exist (a successful call with an absent
directory implies `create_dir_all` succeeded). -/
theorem claim7_open_file (dir : String) (hour : Nat) (env : IoEnv) (eff : OpenEffect)
    (hok : open_log_file dir hour env = Except.ok eff) :
    eff.path = dir ++ "/" ++ logFileName hour ∧
    eff.mode.append = true ∧ eff.mode.create = true ∧ eff.mode.readable = false ∧
    eff.createdDir = !env.dirExists ∧
    (env.dirExists = false → env.createDirResult = none) := by
  obtain ⟨de, cr, op⟩ := env
  cases de <;> cases cr <;> cases op <;> simp [open_log_file] at hok <;>
    subst hok <;> simp

/-- Claim C7 witness: opening in an existing directory at hour index
438297 (2020-01-01T09 UTC) yields the path `logs/2020-01-01_09.log`. -/
theorem claim7_open_file_witness :
    (⟨false, "logs/2020-01-01_09.log", ⟨true, true, false⟩⟩ : OpenEffect).path =
      "logs" ++ "/" ++ logFileName 438297 :=
  (claim7_open_file "logs" 438297 ⟨true, none, none⟩
    ⟨false, "logs/2020-01-01_09.log", ⟨true, true, false⟩⟩ (by decide)).1

/-- Claim C8: a fatal error terminates the event loop: a Submit whose
`insert_and_propagate_all` returns an error makes the loop return that
error at once (later events are never processed), a failed `open_log_file`
during rotation does the same, and a failed initial `open_log_file` makes
`start` return the error before processing any event. -/
theorem claim8_fatal_errors :
    (∀ (dir : Option String) (s : RunState) (e : PoolError) (rest : List LoopEvent),
      runLoop dir s (LoopEvent.msg (TransactionMsg.sendTransactions (Except.error e)) :: rest) =
        ⟨RunOutcome.failed (Error.pool e), s,
          [TraceEntry.command (TransactionMsg.sendTransactions (Except.error e)) 0]⟩) ∧
    (∀ (d : String) (s : RunState) (t : Nat) (env : IoEnv) (err : Error)
        (rest : List LoopEvent),
      open_log_file d (t / 3600) env = Except.error err →
      runLoop (some d) s (LoopEvent.wakeup t env :: rest) =
        ⟨RunOutcome.failed err, { s with currentLog := none },
          [TraceEntry.rotation [Effect.close]]⟩) ∧
    (∀ (p : Process) (n_pools : Nat) (d : String) (env0 : IoEnv) (t0 : Nat)
        (events : List LoopEvent) (err : Error),
      open_log_file d (t0 / 3600) env0 = Except.error err →
      (Process.start p n_pools (some d) env0 t0 events).run.outcome = RunOutcome.failed err ∧
      (Process.start p n_pools (some d) env0 t0 events).run.trace = []) := by
  refine ⟨?_, ?_, ?_⟩
  · intro dir s e rest
    rw [runLoop,
      stepEvent_msg_halt dir s (TransactionMsg.sendTransactions (Except.error e))
        (Error.pool e) rfl]
    rfl
  · intro d s t env err rest h
    rw [runLoop, stepEvent_wakeup_err d s t env err h]
  · intro p n_pools d env0 t0 events err h
    constructor <;> simp [Process.start, startLoop, h]

/-- Claim C8 witness: a rotation whose `open_log_file` fails with io
error 13 terminates the loop with `PersistentLog(13)` and processes
nothing further. -/
theorem claim8_fatal_errors_witness :
    runLoop (some "logs") ⟨some 3600, some 0, [0]⟩
        [LoopEvent.wakeup 3600 ⟨true, none, some 13⟩,
         LoopEvent.msg TransactionMsg.getLogs] =
      ⟨RunOutcome.failed (Error.persistentLog 13), ⟨some 3600, none, [0]⟩,
        [TraceEntry.rotation [Effect.close]]⟩ :=
  claim8_fatal_errors.2.1 "logs" ⟨some 3600, some 0, [0]⟩ 3600 ⟨true, none, some 13⟩
    (Error.persistentLog 13) [LoopEvent.msg TransactionMsg.getLogs] (by decide)

/-- Claim C9: when the input stream closes (the event list is exhausted)
after any number of cleanly processed commands and rotations, the loop
exits and `start` returns success. -/
theorem claim9_eof_success (p : Process) (n_pools : Nat) (dir : Option String)
    (env0 : IoEnv) (t0 : Nat) (events : List LoopEvent)
    (h0 : dir.isSome = true → envOk env0 = true)
    (hc : ∀ e ∈ events, eventClean dir e = true) :
    (Process.start p n_pools dir env0 t0 events).run.outcome = RunOutcome.finished := by
  cases dir with
  | none => exact runLoop_clean none events _ hc
  | some d =>
    have h := open_log_file_of_envOk d (t0 / 3600) env0 (h0 rfl)
    show (startLoop (some d) env0 t0 events).outcome = _
    rw [startLoop]
    simp only [h]
    exact runLoop_clean (some d) events _ hc

/-- Claim C9 witness: a run of one query and one rotation finishes
successfully at stream end. -/
theorem claim9_eof_success_witness :
    (Process.start ⟨10, 5⟩ 2 (some "logs") ⟨true, none, none⟩ 1000
        [LoopEvent.msg TransactionMsg.getLogs,
         LoopEvent.wakeup 3600 ⟨true, none, none⟩]).run.outcome = RunOutcome.finished :=
  claim9_eof_success ⟨10, 5⟩ 2 (some "logs") ⟨true, none, none⟩ 1000
    [LoopEvent.msg TransactionMsg.getLogs, LoopEvent.wakeup 3600 ⟨true, none, none⟩]
    (fun _ => by decide) (by decide)

/-- Claim C10: in every valid run the rotation arm only executes when the
wakeup future was armed, which requires `persistent_log_dir` to be `Some`,
so the `unwrap` of `persistent_log_dir` in the rotation arm never panics. -/
theorem claim10_unwrap_safe (p : Process) (n_pools : Nat) (dir : Option String)
    (env0 : IoEnv) (t0 : Nat) (events : List LoopEvent)
    (hv : validStart dir env0 t0 events = true) :
    (Process.start p n_pools dir env0 t0 events).run.outcome ≠ RunOutcome.panicked :=
  (startLoop_inv dir env0 t0 events hv).1

/-- Claim C10 witness: a valid run with one rotation does not panic. -/
theorem claim10_unwrap_safe_witness :
    (Process.start ⟨10, 5⟩ 2 (some "logs") ⟨true, none, none⟩ 1000
        [LoopEvent.wakeup 3700 ⟨true, none, none⟩]).run.outcome ≠ RunOutcome.panicked :=
  claim10_unwrap_safe ⟨10, 5⟩ 2 (some "logs") ⟨true, none, none⟩ 1000
    [LoopEvent.wakeup 3700 ⟨true, none, none⟩] (by decide)

end Fragment
